import Mathlib

set_option maxHeartbeats 1000000

/- Shallow embedding of the call-lifecycle orchestration core of the
   FutureSelf repository: the onboarding pipeline
   (app/api/onboarding/process/route.ts), the call dispatcher and stuck-call
   reconciliation (app/api/calls/route.ts), the scheduled-call claimer
   (app/api/future/route.ts) and scheduled-call cancellation
   (the schedule DELETE handler).  Remote-service outcomes (Supabase storage,
   ElevenLabs, OpenAI) are oracles passed in as explicit environment values;
   timestamps are epoch milliseconds as produced by Date.getTime(). -/

/- JavaScript truthiness helpers.  The routes coerce values with `x || y`,
   `x ? a : b` and `!x`, under which the empty string and the number 0 are
   falsy; these helpers reproduce that behaviour on Option-typed fields. -/

def jsTruthyStr : Option String → Option String
  | some s => if s = "" then none else some s
  | none => none

/- Models `(typeof a === "number" && a) || (typeof b === "number" && b) || null`:
   a numeric value of 0 is falsy and falls through to the next alternative. -/
def jsNumOr (a b : Option Int) : Option Int :=
  match a with
  | some x => if x = 0 then (match b with
      | some y => if y = 0 then none else some y
      | none => none) else some x
  | none => match b with
    | some y => if y = 0 then none else some y
    | none => none

/- Models `(a || b || "")` on string fields. -/
def jsStrOr (a b : Option String) : String :=
  match jsTruthyStr a with
  | some s => s
  | none =>
    match jsTruthyStr b with
    | some t => t
    | none => ""

/- ---------------- Profiles and the onboarding orchestrator ---------------- -/

inductive SetupStatus
  | new
  | voice_uploaded
  | voice_created
  | agent_created
  | ready
  | error
  deriving DecidableEq

/- Position of a setup status in the forward ordering
   new → voice_uploaded → voice_created → agent_created → ready, with error
   as the universal escape (treated as final). -/
def setupRank : SetupStatus → Nat
  | .new => 0
  | .voice_uploaded => 1
  | .voice_created => 2
  | .agent_created => 3
  | .ready => 4
  | .error => 5

structure Profile where
  clerk_user_id : String
  phone_e164 : Option String := none
  setup_status : SetupStatus := .new
  eleven_voice_id : Option String := none
  eleven_agent_id : Option String := none
  deriving DecidableEq

/- One PATCH issued by updateProfileStatus: always sets setup_status, and
   optionally the voice/agent id fields passed as extraFields. -/
structure ProfileWrite where
  status : SetupStatus
  set_voice_id : Option String := none
  set_agent_id : Option String := none
  deriving DecidableEq

def applyWrite (p : Profile) (w : ProfileWrite) : Profile :=
  { p with
    setup_status := w.status
    eleven_voice_id := match w.set_voice_id with
      | some v => some v
      | none => p.eleven_voice_id
    eleven_agent_id := match w.set_agent_id with
      | some a => some a
      | none => p.eleven_agent_id }

/- The phone-number identity sync performed by the bootstrap route
   (PATCH of phone_e164 only). -/
def syncPhone (p : Profile) (phone : Option String) : Profile :=
  { p with phone_e164 := phone }

structure ExtractedReflection where
  goals : List String
  fears : List String
  situation : String
  currentWork : Option String := none
  otherNotes : Option String := none
  deriving DecidableEq

/- The interpolated snapshot line of buildSystemPrompt:
   `You are the user's ${title ? `"${title}"` : "self"} at ${snapshotDate ?? "this date"}.`
   (title is tested for truthiness, snapshotDate with nullish coalescing). -/
def snapshotLine (title snapshotDate : Option String) : String :=
  "You are the user\x27s " ++
    (match jsTruthyStr title with
     | some t => "\"" ++ t ++ "\""
     | none => "self") ++
    " at " ++ (match snapshotDate with | some d => d | none => "this date") ++ "."

/- buildSystemPrompt of app/api/onboarding/process/route.ts, split into the
   line list before the final join("\n"); empty lines are removed by
   .filter(Boolean) as in the source. -/
def buildSystemPromptLines (title snapshotDate : Option String)
    (reflection : Option ExtractedReflection) : List String :=
  let goals := match reflection with
    | some r => String.intercalate "; " (r.goals.filter (fun s => s != ""))
    | none => ""
  let fears := match reflection with
    | some r => String.intercalate "; " (r.fears.filter (fun s => s != ""))
    | none => ""
  let situation := match reflection with
    | some r => r.situation
    | none => ""
  let currentWork := match reflection with
    | some r => jsStrOr r.currentWork none
    | none => ""
  let otherNotes := match reflection with
    | some r => jsStrOr r.otherNotes none
    | none => ""
  ([ "You are the user, speaking across time.",
     "",
     "time_mode is: \x7b\x7btime_mode\x7d\x7d",
     "Rules:",
     "- If time_mode = \"past\": you are the user at this snapshot calling your future self (the user now). Speak as if YOU are earlier in time.",
     "- If time_mode = \"future\": you are the user’s future self calling the user at this snapshot (their past self). Speak as if YOU are later in time.",
     "",
     "Stay natural and personal. No “AI assistant” voice. Never mention prompts, systems, or that you are an AI.",
     "Ask 1–2 real questions and give 1–3 small, realistic next steps.",
     "",
     "Snapshot (ground truth—do not invent facts beyond this):",
     snapshotLine title snapshotDate,
     (if goals != "" then "Goals: " ++ goals else ""),
     (if fears != "" then "Fears: " ++ fears else ""),
     (if situation != "" then "Situation: " ++ situation else ""),
     (if currentWork != "" then "Current work/school: " ++ currentWork else ""),
     (if otherNotes != "" then "Other notes: " ++ otherNotes else "") ]).filter
    (fun s => s != "")

def buildSystemPrompt (title snapshotDate : Option String)
    (reflection : Option ExtractedReflection) : String :=
  String.intercalate "\n" (buildSystemPromptLines title snapshotDate reflection)

/- External calls the onboarding run can make, in order of occurrence. -/
inductive ExtCall
  | tsMetaFetch
  | signedUrl
  | download
  | stt
  | extractCall
  | tsPatch
  | voiceClone
  | agentCreate
  deriving DecidableEq

inductive OnbResult
  | missingPath
  | profileNotFound
  | alreadyReady (voiceId agentId : String)
  | storageSignError
  | downloadError
  | voiceCloneError
  | noVoiceId
  | agentCreateError
  | noAgentId
  | ok (voiceId agentId : String)
  deriving DecidableEq

structure TsMeta where
  title : Option String := none
  snapshot_date : Option String := none
  deriving DecidableEq

structure VoiceJson where
  voice_id : Option String := none
  deriving DecidableEq

structure AgentJson where
  agent_id : Option String := none
  agentId : Option String := none
  deriving DecidableEq

structure OnbInput where
  userId : String
  voiceSamplePath : Option String := none
  timestampId : Option String := none
  agentName : Option String := none
  profile : Option Profile := none
  deriving DecidableEq

/- Outcomes of the remote calls a single onboarding run performs.
   none / false models the corresponding request failing. -/
structure OnbEnv where
  tsMeta : Option TsMeta := none
  signedUrlOk : Bool := true
  downloadOk : Bool := true
  stt : Option String := none
  extract : Option ExtractedReflection := none
  tsPatchOk : Bool := true
  voiceHttp : Option VoiceJson := none
  agentHttp : Option AgentJson := none

structure OnbOut where
  result : OnbResult
  writes : List ProfileWrite
  extCalls : List ExtCall
  prompt : Option String
  deriving DecidableEq

/- The try/catch block around transcription, extraction and the optional
   timestamps PATCH: any failure inside the block resets extracted to null
   while the transcript keeps whatever value it already had. -/
def tryTranscribeExtract (timestampId : Option String) (env : OnbEnv) :
    String × Option ExtractedReflection × List ExtCall :=
  match env.stt with
  | none => ("", none, [.stt])
  | some tr =>
    match env.extract with
    | none => (tr, none, [.stt, .extractCall])
    | some ex =>
      if timestampId.isSome then
        if env.tsPatchOk then (tr, some ex, [.stt, .extractCall, .tsPatch])
        else (tr, none, [.stt, .extractCall, .tsPatch])
      else (tr, some ex, [.stt, .extractCall])

/- POST of app/api/onboarding/process/route.ts, after authentication and the
   profile fetch (the fetched row list is inp.profile).  Each
   updateProfileStatus PATCH is recorded in writes, each storage/provider
   call in extCalls, and the system prompt once built. -/
def processOnboarding (inp : OnbInput) (env : OnbEnv) : OnbOut :=
  match inp.voiceSamplePath with
  | none => ⟨.missingPath, [], [], none⟩
  | some _ =>
    match inp.profile with
    | none => ⟨.profileNotFound, [], [], none⟩
    | some profile =>
      if profile.setup_status = .ready ∧ (jsTruthyStr profile.eleven_agent_id).isSome
          ∧ (jsTruthyStr profile.eleven_voice_id).isSome then
        ⟨.alreadyReady ((jsTruthyStr profile.eleven_voice_id).getD "")
          ((jsTruthyStr profile.eleven_agent_id).getD ""), [], [], none⟩
      else
        let tsCalls : List ExtCall :=
          if inp.timestampId.isSome then [.tsMetaFetch] else []
        let tsMeta : Option TsMeta :=
          if inp.timestampId.isSome then env.tsMeta else none
        let w1 : ProfileWrite := ⟨.voice_uploaded, none, none⟩
        let werr : ProfileWrite := ⟨.error, none, none⟩
        if env.signedUrlOk = false then
          ⟨.storageSignError, [w1, werr], tsCalls ++ [.signedUrl], none⟩
        else if env.downloadOk = false then
          ⟨.downloadError, [w1, werr], tsCalls ++ [.signedUrl, .download], none⟩
        else
          let te := tryTranscribeExtract inp.timestampId env
          let extracted := te.2.1
          let teCalls := te.2.2
          let systemPrompt := buildSystemPrompt (tsMeta.bind (·.title))
            (tsMeta.bind (·.snapshot_date)) extracted
          let wvc : ProfileWrite := ⟨.voice_created, none, none⟩
          match env.voiceHttp with
          | none =>
            ⟨.voiceCloneError, [w1, wvc, werr],
              tsCalls ++ [.signedUrl, .download] ++ teCalls ++ [.voiceClone],
              some systemPrompt⟩
          | some vj =>
            match jsTruthyStr vj.voice_id with
            | none =>
              ⟨.noVoiceId, [w1, wvc, werr],
                tsCalls ++ [.signedUrl, .download] ++ teCalls ++ [.voiceClone],
                some systemPrompt⟩
            | some voiceId =>
              let wac : ProfileWrite := ⟨.agent_created, some voiceId, none⟩
              match env.agentHttp with
              | none =>
                ⟨.agentCreateError, [w1, wvc, wac, werr],
                  tsCalls ++ [.signedUrl, .download] ++ teCalls
                    ++ [.voiceClone, .agentCreate],
                  some systemPrompt⟩
              | some aj =>
                match (jsTruthyStr aj.agent_id).orElse
                    (fun _ => jsTruthyStr aj.agentId) with
                | none =>
                  ⟨.noAgentId, [w1, wvc, wac, werr],
                    tsCalls ++ [.signedUrl, .download] ++ teCalls
                      ++ [.voiceClone, .agentCreate],
                    some systemPrompt⟩
                | some agentId =>
                  ⟨.ok voiceId agentId,
                    [w1, wvc, wac, ⟨.ready, none, some agentId⟩],
                    tsCalls ++ [.signedUrl, .download] ++ teCalls
                      ++ [.voiceClone, .agentCreate],
                    some systemPrompt⟩

/- The sequence of profile rows visible in the store after each successive
   PATCH of a run (the initial, pre-run row excluded). -/
def writeStates (p : Profile) (ws : List ProfileWrite) : List Profile :=
  (ws.scanl applyWrite p).drop 1

def onbStates (inp : OnbInput) (env : OnbEnv) : List Profile :=
  match inp.profile with
  | none => []
  | some p => writeStates p (processOnboarding inp env).writes

def applyWrites (p : Profile) (ws : List ProfileWrite) : Profile :=
  ws.foldl applyWrite p

/- ---------------- Calls and the stuck-call reconciliation ---------------- -/

inductive CallStatus
  | queued
  | dialing
  | in_progress
  | completed
  | failed
  deriving DecidableEq

/- Position of a call status in its forward ordering; completed and failed
   are the two terminal states. -/
def callRank : CallStatus → Nat
  | .queued => 0
  | .dialing => 1
  | .in_progress => 2
  | .completed => 3
  | .failed => 3

def isActiveStatus : CallStatus → Bool
  | .queued => true
  | .dialing => true
  | .in_progress => true
  | .completed => false
  | .failed => false

structure Call where
  id : Nat
  clerk_user_id : String
  status : CallStatus
  created_at : Option Int := none
  started_at : Option Int := none
  ended_at : Option Int := none
  duration_seconds : Option Int := none
  eleven_conversation_id : Option String := none
  twilio_call_sid : Option String := none
  failure_reason : Option String := none
  origin : String := "manual"
  timestamp_id : Option String := none
  scheduled_call_id : Option Nat := none
  to_number_e164 : Option String := none
  deriving DecidableEq

/- One PATCH on a calls row; an outer some models a key present in the PATCH
   body (whose value may itself be null). -/
structure CallPatch where
  status : CallStatus
  started_at : Option (Option Int) := none
  ended_at : Option (Option Int) := none
  duration_seconds : Option (Option Int) := none
  eleven_conversation_id : Option (Option String) := none
  twilio_call_sid : Option (Option String) := none
  failure_reason : Option (Option String) := none
  deriving DecidableEq

def applyCallPatch (p : CallPatch) (c : Call) : Call :=
  { c with
    status := p.status
    started_at := p.started_at.getD c.started_at
    ended_at := p.ended_at.getD c.ended_at
    duration_seconds := p.duration_seconds.getD c.duration_seconds
    eleven_conversation_id := p.eleven_conversation_id.getD c.eleven_conversation_id
    twilio_call_sid := p.twilio_call_sid.getD c.twilio_call_sid
    failure_reason := p.failure_reason.getD c.failure_reason }

/- A conversation-details body as returned by the provider; the route
   tolerates both snake_case and camelCase spellings of each field. -/
structure ConvoDetails where
  call_duration_secs : Option Int := none
  callDurationSecs : Option Int := none
  start_time_unix_secs : Option Int := none
  startTimeUnixSecs : Option Int := none
  end_time_unix_secs : Option Int := none
  endTimeUnixSecs : Option Int := none
  status : Option String := none
  conversation_status : Option String := none

/- Outcome of GET /v1/convai/conversations/:id. -/
inductive ProviderResp
  | notFound
  | httpError (code : Nat)
  | ok (d : ConvoDetails)

def STALE_MS : Int := 12 * 60 * 1000

/- `const startedIso = c.started_at || c.created_at`. -/
def startTimeOf (c : Call) : Option Int :=
  match c.started_at with
  | some t => some t
  | none => c.created_at

/- `const isStale = startedAt ? now - startedAt > STALE_MS : true`.
   A missing timestamp is stale immediately; a parsed time of exactly 0 is
   falsy in JavaScript, so it also takes the `true` branch. -/
def isStale (now : Int) (c : Call) : Bool :=
  match startTimeOf c with
  | none => true
  | some t => if t = 0 then true else decide (now - t > STALE_MS)

def failPatch (now : Int) (reason : String) : CallPatch :=
  { status := .failed, ended_at := some (some now),
    failure_reason := some (some reason) }

/- The decision the reconciliation loop body takes for one active call:
   some patch to apply, or none to leave the row untouched. -/
def decideCall (now : Int) (oracle : String → ProviderResp) (c : Call) :
    Option CallPatch :=
  let startedAt := startTimeOf c
  let stale := isStale now c
  match c.eleven_conversation_id with
  | none =>
    if stale then some (failPatch now "stale_no_conversation_id") else none
  | some convoId =>
    match oracle convoId with
    | .notFound =>
      if stale then some (failPatch now "stale_conversation_not_found") else none
    | .httpError code =>
      if stale then some (failPatch now ("stale_eleven_error_" ++ toString code))
      else none
    | .ok d =>
      let callDuration := jsNumOr d.call_duration_secs d.callDurationSecs
      let startUnix := jsNumOr d.start_time_unix_secs d.startTimeUnixSecs
      let endUnix := jsNumOr d.end_time_unix_secs d.endTimeUnixSecs
      let statusText := (jsStrOr d.status d.conversation_status).toLower
      let looksEnded :=
        (callDuration.isSome && (startUnix.isSome || startedAt.isSome)) ||
        endUnix.isSome ||
        (statusText == "completed" || statusText == "ended" ||
         statusText == "done" || statusText == "finished")
      if looksEnded then
        let endedAt : Option Int :=
          match endUnix with
          | some e => some (e * 1000)
          | none =>
            match startUnix, callDuration with
            | some s, some dur => some ((s + dur) * 1000)
            | _, _ =>
              match startedAt, callDuration with
              | some t, some dur => some (t + dur * 1000)
              | _, _ => if stale then some now else none
        let durationSecs : Option Int :=
          match callDuration with
          | some dur => some (max 0 dur)
          | none =>
            match startedAt, endedAt with
            | some t, some e => some (max 0 ((e - t).fdiv 1000))
            | _, _ => none
        some { status := .completed, ended_at := some endedAt,
               duration_seconds := some durationSecs,
               failure_reason := some none }
      else if stale then some (failPatch now "stale_unknown_state")
      else none

/- order=created_at.desc: descending creation time, null keys first
   (PostgreSQL places nulls first on a descending order). -/
def beforeDesc (a b : Call) : Bool :=
  match a.created_at, b.created_at with
  | none, _ => true
  | some _, none => false
  | some x, some y => decide (y ≤ x)

def insertDesc (c : Call) : List Call → List Call
  | [] => [c]
  | d :: ds => if beforeDesc c d then c :: d :: ds else d :: insertDesc c ds

def sortByCreatedDesc (l : List Call) : List Call := l.foldr insertDesc []

/- The reconciliation query: the user's calls with status in
   (queued,dialing,in_progress), ordered by created_at descending, limit 3. -/
def fetchActive (userId : String) (db : List Call) : List Call :=
  (sortByCreatedDesc (db.filter
    (fun c => c.clerk_user_id == userId && isActiveStatus c.status))).take 3

def applyPatchById (db : List Call) (cid : Nat) (p : CallPatch) : List Call :=
  db.map (fun c => if c.id = cid then applyCallPatch p c else c)

def reconcileStep (now : Int) (oracle : String → ProviderResp)
    (db : List Call) (c : Call) : List Call :=
  match decideCall now oracle c with
  | some p => applyPatchById db c.id p
  | none => db

/- reconcileStuckCalls of app/api/calls/route.ts: fetch the (at most 3 most
   recent) active calls, then decide and patch each in turn. -/
def reconcileStuckCalls (userId : String) (now : Int)
    (oracle : String → ProviderResp) (db : List Call) : List Call :=
  (fetchActive userId db).foldl (reconcileStep now oracle) db

def countActive (userId : String) (db : List Call) : Nat :=
  (db.filter (fun c => c.clerk_user_id == userId && isActiveStatus c.status)).length

/- ---------------- The manual call dispatcher (POST /api/calls) ---------------- -/

inductive CallResult
  | profileNotFound
  | notReady
  | missingPhone
  | noTimestamp
  | activeCallExists
  | insertFailed
  | noCallId
  | dialFailed
  | ok
  deriving DecidableEq

structure DialJson where
  conversation_id : Option String := none
  callSid : Option String := none
  deriving DecidableEq

/- Outcomes of the store/provider requests one dispatch makes.  rowId is the
   id the store assigns to the inserted calls row; insertReturnsId models
   whether the representation returned by the insert carried that id. -/
structure StartEnv where
  oracle : String → ProviderResp
  insertOk : Bool := true
  rowId : Nat := 0
  insertReturnsId : Bool := true
  dial : Option DialJson := none
  dialErrText : String := ""

def newCallRow (userId tsId toNumber : String) (rowId : Nat) (now : Int) : Call :=
  { id := rowId, clerk_user_id := userId, status := .queued,
    created_at := some now, origin := "manual", timestamp_id := some tsId,
    to_number_e164 := some toNumber }

structure StartOut where
  result : CallResult
  db : List Call

/- POST of app/api/calls/route.ts after authentication: reconcile, check the
   profile/timestamp preconditions, reject if an active call remains, else
   insert a queued row and dial. -/
def startCall (userId : String) (now : Int) (env : StartEnv)
    (profile : Option Profile) (latestTs : Option String) (db : List Call) :
    StartOut :=
  let db1 := reconcileStuckCalls userId now env.oracle db
  match profile with
  | none => ⟨.profileNotFound, db1⟩
  | some prof =>
    if prof.setup_status ≠ .ready ∨ jsTruthyStr prof.eleven_agent_id = none then
      ⟨.notReady, db1⟩
    else
      match jsTruthyStr prof.phone_e164 with
      | none => ⟨.missingPhone, db1⟩
      | some toNumber =>
        match latestTs with
        | none => ⟨.noTimestamp, db1⟩
        | some tsId =>
          if db1.any (fun c => c.clerk_user_id == userId && isActiveStatus c.status) then
            ⟨.activeCallExists, db1⟩
          else if env.insertOk = false then ⟨.insertFailed, db1⟩
          else
            let db2 := db1 ++ [newCallRow userId tsId toNumber env.rowId now]
            if env.insertReturnsId = false then ⟨.noCallId, db2⟩
            else
              match env.dial with
              | none =>
                ⟨.dialFailed, applyPatchById db2 env.rowId
                  { status := .failed,
                    failure_reason := some (some env.dialErrText) }⟩
              | some dj =>
                ⟨.ok, applyPatchById db2 env.rowId
                  { status := .dialing, started_at := some (some now),
                    eleven_conversation_id := some (jsTruthyStr dj.conversation_id),
                    twilio_call_sid := some (jsTruthyStr dj.callSid) }⟩

/- ---------------- Scheduled calls: claimer, claims, cancellation ---------------- -/

inductive SchedStatus
  | pending
  | executing
  | executed
  | failed
  | canceled
  deriving DecidableEq

/- Position of a scheduled-call status in its ordering: pending, then
   executing, then a terminal state (executed, failed, or canceled). -/
def schedRank : SchedStatus → Nat
  | .pending => 0
  | .executing => 1
  | .executed => 2
  | .failed => 2
  | .canceled => 2

structure SchedRow where
  id : Nat
  clerk_user_id : String
  timestamp_id : Option String := none
  scheduled_for : Int
  status : SchedStatus
  attempt_count : Nat := 0
  last_attempt_at : Option Int := none
  executed_at : Option Int := none
  failure_reason : Option String := none
  updated_at : Option Int := none
  deriving DecidableEq

inductive ClaimKind
  | rpc
  | fallback
  deriving DecidableEq

structure ClaimAttempt where
  kind : ClaimKind
  now : Int
  deriving DecidableEq

/- Modelled from the spec: the atomic server-side claim RPC
   claim_due_scheduled_calls is a database function not present under src/
   (only its caller is); per the spec it conditionally updates due pending
   rows to executing and returns the updated rows, atomically per row. -/
def rpcClaimRow (now : Int) (r : SchedRow) : Bool × SchedRow :=
  if r.status = .pending ∧ r.scheduled_for ≤ now then
    (true, { r with
      status := SchedStatus.executing
      last_attempt_at := some now
      attempt_count := r.attempt_count + 1 })
  else (false, r)

/- The fallback claim of claimDueScheduled: a PATCH on
   scheduled_calls?id=eq.X&status=eq.pending, which updates (and returns) the
   row exactly when its status is still pending. -/
def fallbackClaimRow (now : Int) (r : SchedRow) : Bool × SchedRow :=
  if r.status = .pending then
    (true, { r with
      status := SchedStatus.executing
      last_attempt_at := some now
      attempt_count := r.attempt_count + 1 })
  else (false, r)

def applyClaim (r : SchedRow) (a : ClaimAttempt) : Bool × SchedRow :=
  match a.kind with
  | .rpc => rpcClaimRow a.now r
  | .fallback => fallbackClaimRow a.now r

/- A serialization of concurrent claim attempts on one row: each attempt is
   one atomic conditional update at the store.  Returns (number of attempts
   that succeeded, number of transitions into executing, final row). -/
def runClaims : SchedRow → List ClaimAttempt → Nat × Nat × SchedRow
  | r, [] => (0, 0, r)
  | r, a :: rest =>
    let s := applyClaim r a
    let tl := runClaims s.2 rest
    ((if s.1 then 1 else 0) + tl.1,
     (if r.status ≠ .executing ∧ s.2.status = .executing then 1 else 0) + tl.2.1,
     tl.2.2)

/- Store/provider outcomes for one claimed job of the cron sweep. -/
structure JobEnv where
  insertOk : Bool := true
  insertErrText : String := ""
  rowId : Nat := 0
  insertReturnsId : Bool := true
  dial : Option DialJson := none
  dialErrText : String := ""

structure JobOut where
  db : List Call
  job : SchedRow
  processed : Bool

def schedCallRow (job : SchedRow) (toNumber : String) (rowId : Nat) (now : Int) :
    Call :=
  { id := rowId, clerk_user_id := job.clerk_user_id, status := .queued,
    created_at := some now, origin := "scheduled",
    timestamp_id := job.timestamp_id, scheduled_call_id := some job.id,
    to_number_e164 := some toNumber }

/- The catch branch of the per-job loop: mark the scheduled row failed with a
   trace-tagged reason, and fail the call row too when one was created. -/
def jobFail (db : List Call) (job : SchedRow) (callId : Option Nat)
    (reason : String) (traceId : String) (now : Int) : JobOut :=
  let r := reason.take 900
  let job1 := { job with
    status := SchedStatus.failed
    failure_reason := some ("[" ++ traceId ++ "] " ++ r) }
  match callId with
  | some cid =>
    ⟨applyPatchById db cid
      { status := .failed, ended_at := some (some now),
        failure_reason := some (some r) }, job1, false⟩
  | none => ⟨db, job1, false⟩

/- The body of the per-job loop of POST /api/future for one claimed job:
   profile preconditions, insert a queued call row, dial, then mark the call
   dialing and the scheduled row executed; any failure takes the catch
   branch.  Note that no per-user active-call check is made. -/
def claimerJob (traceId : String) (now : Int) (env : JobEnv)
    (profile : Option Profile) (job : SchedRow) (db : List Call) : JobOut :=
  match profile with
  | none => jobFail db job none "profile_not_found" traceId now
  | some prof =>
    if prof.setup_status ≠ .ready then
      jobFail db job none "profile_not_ready" traceId now
    else if jsTruthyStr prof.eleven_agent_id = none then
      jobFail db job none "missing_agent_id" traceId now
    else
      match jsTruthyStr prof.phone_e164 with
      | none => jobFail db job none "missing_phone" traceId now
      | some toNumber =>
        if env.insertOk = false then
          jobFail db job none ("call_row_insert_failed: " ++ env.insertErrText)
            traceId now
        else
          let db2 := db ++ [schedCallRow job toNumber env.rowId now]
          if env.insertReturnsId = false then
            jobFail db2 job none "no_call_id_returned" traceId now
          else
            match env.dial with
            | none =>
              jobFail db2 job (some env.rowId)
                ("eleven_failed: " ++ env.dialErrText) traceId now
            | some dj =>
              ⟨applyPatchById db2 env.rowId
                { status := .dialing, started_at := some (some now),
                  eleven_conversation_id := some dj.conversation_id,
                  twilio_call_sid := some dj.callSid },
               { job with
                 status := SchedStatus.executed
                 executed_at := some now
                 failure_reason := none },
               true⟩

/- DELETE of the schedule route: PATCH
   scheduled_calls?id=eq.X&clerk_user_id=eq.Y with status canceled; the
   filter carries no status guard. -/
def cancelScheduledCall (userId : String) (callId : Nat) (now : Int)
    (db : List SchedRow) : List SchedRow :=
  db.map (fun r =>
    if r.id = callId ∧ r.clerk_user_id = userId then
      { r with status := SchedStatus.canceled, updated_at := some now }
    else r)

theorem processOnboarding_writes_cases (inp : OnbInput) (env : OnbEnv) :
    (processOnboarding inp env).writes = [] ∨
    (processOnboarding inp env).writes =
      [⟨.voice_uploaded, none, none⟩, ⟨.error, none, none⟩] ∨
    (processOnboarding inp env).writes =
      [⟨.voice_uploaded, none, none⟩, ⟨.voice_created, none, none⟩,
       ⟨.error, none, none⟩] ∨
    (∃ v, (processOnboarding inp env).writes =
      [⟨.voice_uploaded, none, none⟩, ⟨.voice_created, none, none⟩,
       ⟨.agent_created, some v, none⟩, ⟨.error, none, none⟩]) ∨
    (∃ v a, (processOnboarding inp env).writes =
      [⟨.voice_uploaded, none, none⟩, ⟨.voice_created, none, none⟩,
       ⟨.agent_created, some v, none⟩, ⟨.ready, none, some a⟩]) := by
  unfold processOnboarding
  repeat' split
  any_goals simp

/-- C1: every profile state an onboarding run leaves behind with
setup_status = ready has both eleven_voice_id and eleven_agent_id non-null,
for every input and every combination of mid-pipeline provider failures; and
the phone identity-sync preserves status and ids, so it cannot break the
invariant either. -/
theorem c1_ready_implies_ids (inp : OnbInput) (env : OnbEnv) (p : Profile)
    (hp : p ∈ onbStates inp env) (hr : p.setup_status = .ready) :
    (p.eleven_voice_id.isSome ∧ p.eleven_agent_id.isSome) ∧
    (∀ (q : Profile) (ph : Option String),
      (syncPhone q ph).setup_status = q.setup_status ∧
      (syncPhone q ph).eleven_voice_id = q.eleven_voice_id ∧
      (syncPhone q ph).eleven_agent_id = q.eleven_agent_id) := by
  refine ⟨?_, fun q ph => ⟨rfl, rfl, rfl⟩⟩
  unfold onbStates at hp
  rcases hprof : inp.profile with _ | p0 <;> rw [hprof] at hp
  · simp at hp
  rcases processOnboarding_writes_cases inp env with h | h | h | ⟨v, h⟩ | ⟨v, a, h⟩ <;>
    rw [h] at hp <;>
    simp [writeStates, applyWrite, List.scanl] at hp
  · rcases hp with h1 | h1 <;> subst h1 <;> simp_all
  · rcases hp with h1 | h1 | h1 <;> subst h1 <;> simp_all
  · rcases hp with h1 | h1 | h1 | h1 <;> subst h1 <;> simp_all
  · rcases hp with h1 | h1 | h1 | h1 <;> subst h1 <;> simp_all

/-- C4: on a profile already ready with truthy voice and agent ids,
processOnboarding returns the stored ids immediately: it issues no storage,
transcription, voice-clone or agent-create call, writes no status update,
builds no prompt, and a second invocation (under any provider behaviour)
returns the same ids. -/
theorem c4_idempotent_ready (inp : OnbInput) (env env2 : OnbEnv) (profile : Profile)
    (hprof : inp.profile = some profile) (path : String)
    (hpath : inp.voiceSamplePath = some path)
    (hs : profile.setup_status = .ready)
    (v a : String)
    (hv : profile.eleven_voice_id = some v) (hv2 : v ≠ "")
    (ha : profile.eleven_agent_id = some a) (ha2 : a ≠ "") :
    (processOnboarding inp env).result = .alreadyReady v a ∧
    (processOnboarding inp env).writes = [] ∧
    (processOnboarding inp env).extCalls = [] ∧
    (processOnboarding inp env).prompt = none ∧
    (processOnboarding inp env2).result = .alreadyReady v a := by
  unfold processOnboarding
  rw [hprof, hpath]
  simp [hs, hv, ha, jsTruthyStr, hv2, ha2]

theorem head_append_of_head (a b : String) (c : Char)
    (h : a.data.head? = some c) : (a ++ b).data.head? = some c := by
  rw [String.data_append]
  cases ha : a.data with
  | nil => rw [ha] at h; simp at h
  | cons x xs => rw [ha] at h; simp at h; simp [ha, h]

theorem snapshotLine_head (t d : Option String) :
    (snapshotLine t d).data.head? = some 'Y' := by
  unfold snapshotLine
  apply head_append_of_head
  apply head_append_of_head
  apply head_append_of_head
  apply head_append_of_head
  decide

theorem snapshotLine_ne_empty (t d : Option String) : snapshotLine t d ≠ "" := by
  intro h
  have h2 := snapshotLine_head t d
  rw [h] at h2
  simp at h2

theorem promptLines_none (t d : Option String) :
    buildSystemPromptLines t d none =
      [ "You are the user, speaking across time.",
        "time_mode is: \x7b\x7btime_mode\x7d\x7d",
        "Rules:",
        "- If time_mode = \"past\": you are the user at this snapshot calling your future self (the user now). Speak as if YOU are earlier in time.",
        "- If time_mode = \"future\": you are the user’s future self calling the user at this snapshot (their past self). Speak as if YOU are later in time.",
        "Stay natural and personal. No “AI assistant” voice. Never mention prompts, systems, or that you are an AI.",
        "Ask 1–2 real questions and give 1–3 small, realistic next steps.",
        "Snapshot (ground truth—do not invent facts beyond this):",
        snapshotLine t d ] := by
  have hsnap : (snapshotLine t d != "") = true := by
    simp only [bne_iff_ne, ne_eq]
    exact snapshotLine_ne_empty t d
  simp [buildSystemPromptLines, hsnap]

theorem ne_append_of_headB (s a : String)
    (h1 : a.data.head?.isSome = true)
    (h2 : (s.data.head? == a.data.head?) = false) : ∀ r : String, s ≠ a ++ r := by
  cases ha : a.data.head? with
  | none => rw [ha] at h1; simp at h1
  | some ca =>
    intro r heq
    rw [heq, head_append_of_head a r ca ha, ha] at h2
    simp at h2

theorem promptLines_none_no_goals_fears (t d : Option String) :
    ∀ l ∈ buildSystemPromptLines t d none,
      (∀ r : String, l ≠ "Goals: " ++ r) ∧ (∀ r : String, l ≠ "Fears: " ++ r) := by
  rw [promptLines_none]
  intro l hl
  simp only [List.mem_cons, List.not_mem_nil, or_false] at hl
  rcases hl with rfl|rfl|rfl|rfl|rfl|rfl|rfl|rfl|rfl <;> constructor <;>
    first
      | exact ne_append_of_headB _ _ (by decide) (by decide)
      | exact ne_append_of_headB _ _ (by decide) (by rw [snapshotLine_head]; decide)

/-- C8: when transcription or reflection extraction fails but storage and the
voice/agent provider succeed, the run is not aborted: it completes with ok,
the final profile status is ready, and the agent prompt is the generic one
built from no reflection data, which contains the default framing line and no
Goals or Fears lines. -/
theorem c8_best_effort_generic_prompt (inp : OnbInput) (env : OnbEnv) (profile : Profile)
    (path v a : String) (vj : VoiceJson) (aj : AgentJson)
    (hprof : inp.profile = some profile)
    (hpath : inp.voiceSamplePath = some path)
    (hni : ¬ (profile.setup_status = .ready ∧
      (jsTruthyStr profile.eleven_agent_id).isSome ∧
      (jsTruthyStr profile.eleven_voice_id).isSome))
    (hsu : env.signedUrlOk = true) (hdl : env.downloadOk = true)
    (hfail : env.stt = none ∨ env.extract = none)
    (hvh : env.voiceHttp = some vj) (hvid : vj.voice_id = some v) (hv : v ≠ "")
    (hah : env.agentHttp = some aj) (haid : aj.agent_id = some a) (ha : a ≠ "") :
    (processOnboarding inp env).result = .ok v a ∧
    (applyWrites profile (processOnboarding inp env).writes).setup_status = .ready ∧
    ∃ tt dd,
      (processOnboarding inp env).prompt = some (buildSystemPrompt tt dd none) ∧
      "You are the user, speaking across time." ∈ buildSystemPromptLines tt dd none ∧
      ∀ l ∈ buildSystemPromptLines tt dd none,
        (∀ r : String, l ≠ "Goals: " ++ r) ∧ (∀ r : String, l ≠ "Fears: " ++ r) := by
  have hext : (tryTranscribeExtract inp.timestampId env).2.1 = none := by
    rcases hfail with h | h
    · unfold tryTranscribeExtract; rw [h]
    · unfold tryTranscribeExtract; cases env.stt <;> simp [h]
  unfold processOnboarding
  rw [hprof, hpath]
  simp only [hsu, hdl, hvh, hah, hvid, haid, if_neg hni, hext]
  simp only [jsTruthyStr]
  simp [hv, ha, hext]
  refine ⟨?_, ?_⟩
  · simp [applyWrites, applyWrite]
  · refine ⟨_, _, rfl, ?_, promptLines_none_no_goals_fears _ _⟩
    rw [promptLines_none]
    simp

def c3Profile : Profile :=
  { clerk_user_id := "user1", setup_status := .voice_created,
    eleven_voice_id := some "v-old" }

def c3Inp : OnbInput :=
  { userId := "user1", voiceSamplePath := some "u/1.webm",
    profile := some c3Profile }

def c3Env : OnbEnv :=
  { stt := some "hello", extract := some ⟨["g"], [], "s", none, none⟩,
    voiceHttp := some ⟨some "v1"⟩, agentHttp := some ⟨some "a1", none⟩ }

/-- C3 counterexample: invoking processOnboarding on a profile whose
setup_status is already voice_created immediately writes voice_uploaded,
a status of strictly lower rank — the claimed monotonicity fails across
invocations. -/
theorem c3_regression_counterexample :
    c3Profile.setup_status = SetupStatus.voice_created ∧
    ((processOnboarding c3Inp c3Env).writes.map (·.status)).head? =
      some SetupStatus.voice_uploaded ∧
    setupRank SetupStatus.voice_uploaded < setupRank SetupStatus.voice_created := by
  decide

def rankR (a b : Call) : Prop := a.id = b.id ∧ callRank a.status ≤ callRank b.status

theorem callRank_le_three (s : CallStatus) : callRank s ≤ 3 := by
  cases s <;> simp [callRank]

theorem rankR_refl (db : List Call) : List.Forall₂ rankR db db := by
  induction db with
  | nil => exact List.Forall₂.nil
  | cons c t ih => exact List.Forall₂.cons ⟨rfl, le_refl _⟩ ih

theorem rankR_trans {l1 l2 l3 : List Call}
    (h1 : List.Forall₂ rankR l1 l2) (h2 : List.Forall₂ rankR l2 l3) :
    List.Forall₂ rankR l1 l3 := by
  induction h1 generalizing l3 with
  | nil => cases h2; exact List.Forall₂.nil
  | cons hab htl ih =>
    cases h2 with
    | cons hbc htl2 =>
      exact List.Forall₂.cons ⟨hab.1.trans hbc.1, hab.2.trans hbc.2⟩ (ih htl2)

theorem decideCall_status (now : Int) (oracle : String → ProviderResp) (c : Call)
    (p : CallPatch) (h : decideCall now oracle c = some p) :
    p.status = .completed ∨ p.status = .failed := by
  unfold decideCall at h
  dsimp only at h
  repeat' split at h
  all_goals (try cases h)
  all_goals first | exact Or.inl rfl | exact Or.inr rfl

theorem applyPatchById_forall2 (db : List Call) (cid : Nat) (p : CallPatch)
    (hp : p.status = .completed ∨ p.status = .failed) :
    List.Forall₂ rankR db (applyPatchById db cid p) := by
  induction db with
  | nil => exact List.Forall₂.nil
  | cons c t ih =>
    have hstep : rankR c (if c.id = cid then applyCallPatch p c else c) := by
      by_cases h : c.id = cid
      · rw [if_pos h]
        refine ⟨rfl, ?_⟩
        have h3 := callRank_le_three c.status
        have hst : (applyCallPatch p c).status = p.status := rfl
        rcases hp with hp | hp <;> rw [hst, hp] <;> simpa [callRank] using h3
      · rw [if_neg h]
        exact ⟨rfl, le_refl _⟩
    exact List.Forall₂.cons hstep ih

theorem foldl_reconcileStep_forall2 (now : Int) (oracle : String → ProviderResp) :
    ∀ (l : List Call) (db : List Call),
      List.Forall₂ rankR db (l.foldl (reconcileStep now oracle) db) := by
  intro l
  induction l with
  | nil => intro db; exact rankR_refl db
  | cons c t ih =>
    intro db
    refine rankR_trans ?_ (ih (reconcileStep now oracle db c))
    unfold reconcileStep
    cases h : decideCall now oracle c with
    | none => exact rankR_refl db
    | some p => exact applyPatchById_forall2 db c.id p (decideCall_status _ _ _ _ h)

theorem reconcile_forall2 (userId : String) (now : Int)
    (oracle : String → ProviderResp) (db : List Call) :
    List.Forall₂ rankR db (reconcileStuckCalls userId now oracle db) :=
  foldl_reconcileStep_forall2 now oracle (fetchActive userId db) db

theorem eq_of_mem_of_nodup_id {db : List Call} (hnd : (db.map (·.id)).Nodup)
    {a b : Call} (ha : a ∈ db) (hb : b ∈ db) (h : a.id = b.id) : a = b :=
  List.inj_on_of_nodup_map hnd ha hb h

theorem forall2_mem_rel {R : Call → Call → Prop} {l1 l2 : List Call}
    (hf : List.Forall₂ R l1 l2) {c1 : Call} (h1 : c1 ∈ l2) :
    ∃ c0 ∈ l1, R c0 c1 := by
  rw [List.forall₂_iff_get] at hf
  obtain ⟨⟨i, hi⟩, rfl⟩ := List.mem_iff_get.mp h1
  refine ⟨l1.get ⟨i, by omega⟩, List.get_mem _ _ _, hf.2 i (by omega) hi⟩

theorem reconcile_rank_mono (userId : String) (now : Int)
    (oracle : String → ProviderResp) (db : List Call)
    (hnd : (db.map (·.id)).Nodup) (c0 : Call) (h0 : c0 ∈ db) (c1 : Call)
    (h1 : c1 ∈ reconcileStuckCalls userId now oracle db) (hid : c0.id = c1.id) :
    callRank c0.status ≤ callRank c1.status := by
  obtain ⟨c0', h0', hR⟩ := forall2_mem_rel (reconcile_forall2 userId now oracle db) h1
  have : c0' = c0 := eq_of_mem_of_nodup_id hnd h0' h0 (hR.1.trans hid.symm)
  rw [← this]
  exact hR.2

theorem reconcile_mem_id (userId : String) (now : Int)
    (oracle : String → ProviderResp) (db : List Call) (x : Call)
    (hx : x ∈ reconcileStuckCalls userId now oracle db) : x.id ∈ db.map (·.id) := by
  obtain ⟨c0', h0', hR⟩ := forall2_mem_rel (reconcile_forall2 userId now oracle db) hx
  rw [← hR.1]
  exact List.mem_map_of_mem _ h0'

theorem startCall_rank_mono (userId : String) (now : Int) (env : StartEnv)
    (profile : Option Profile) (latestTs : Option String) (db : List Call)
    (hnd : (db.map (·.id)).Nodup) (hfresh : env.rowId ∉ db.map (·.id))
    (c0 : Call) (h0 : c0 ∈ db) (c1 : Call)
    (h1 : c1 ∈ (startCall userId now env profile latestTs db).db)
    (hid : c0.id = c1.id) :
    callRank c0.status ≤ callRank c1.status := by
  have hrec : ∀ x ∈ reconcileStuckCalls userId now env.oracle db, c0.id = x.id →
      callRank c0.status ≤ callRank x.status :=
    fun x hx hcx => reconcile_rank_mono userId now env.oracle db hnd c0 h0 x hx hcx
  have hrecid : ∀ x ∈ reconcileStuckCalls userId now env.oracle db, x.id ≠ env.rowId := by
    intro x hx heq
    exact hfresh (heq ▸ reconcile_mem_id userId now env.oracle db x hx)
  have hc0ne : c0.id ≠ env.rowId := by
    intro h
    exact hfresh (h ▸ List.mem_map_of_mem _ h0)
  unfold startCall at h1
  dsimp only at h1
  repeat' split at h1
  all_goals try exact hrec c1 h1 hid
  all_goals
    first
      | (rcases List.mem_append.mp h1 with hL | hR
         · exact hrec c1 hL hid
         · rcases List.mem_singleton.mp hR with rfl
           exact absurd hid hc0ne)
      | (simp only [applyPatchById] at h1
         obtain ⟨x, hx, hxe⟩ := List.mem_map.mp h1
         rcases List.mem_append.mp hx with hL | hR
         · rw [if_neg (hrecid x hL)] at hxe
           exact hrec c1 (hxe ▸ hL) hid
         · rcases List.mem_singleton.mp hR with rfl
           have hc1 : c0.id = env.rowId := by
             rw [hid, ← hxe]
             split <;> rfl
           exact absurd hc1 hc0ne)

theorem schedRank_le_two (s : SchedStatus) : schedRank s ≤ 2 := by
  cases s <;> simp [schedRank]

theorem claimerJob_rank_mono (traceId : String) (now : Int) (env : JobEnv)
    (profile : Option Profile) (job : SchedRow) (db : List Call)
    (hnd : (db.map (·.id)).Nodup) (hfresh : env.rowId ∉ db.map (·.id))
    (c0 : Call) (h0 : c0 ∈ db) (c1 : Call)
    (h1 : c1 ∈ (claimerJob traceId now env profile job db).db)
    (hid : c0.id = c1.id) :
    callRank c0.status ≤ callRank c1.status := by
  have hbase : ∀ x ∈ db, c0.id = x.id → callRank c0.status ≤ callRank x.status := by
    intro x hx hcx
    rw [← eq_of_mem_of_nodup_id hnd h0 hx hcx]
  have hbid : ∀ x ∈ db, x.id ≠ env.rowId := by
    intro x hx heq
    exact hfresh (heq ▸ List.mem_map_of_mem _ hx)
  have hc0ne : c0.id ≠ env.rowId := by
    intro h
    exact hfresh (h ▸ List.mem_map_of_mem _ h0)
  unfold claimerJob jobFail at h1
  dsimp only at h1
  repeat' split at h1
  all_goals try exact hbase c1 h1 hid
  all_goals
    first
      | (rcases List.mem_append.mp h1 with hL | hR
         · exact hbase c1 hL hid
         · rcases List.mem_singleton.mp hR with rfl
           exact absurd hid hc0ne)
      | (simp only [applyPatchById] at h1
         obtain ⟨x, hx, hxe⟩ := List.mem_map.mp h1
         rcases List.mem_append.mp hx with hL | hR
         · rw [if_neg (hbid x hL)] at hxe
           exact hbase c1 (hxe ▸ hL) hid
         · rcases List.mem_singleton.mp hR with rfl
           have hc1 : c0.id = env.rowId := by
             rw [hid, ← hxe]
             split <;> rfl
           exact absurd hc1 hc0ne)

theorem claimerJob_sched_mono (traceId : String) (now : Int) (env : JobEnv)
    (profile : Option Profile) (job : SchedRow) (db : List Call) :
    schedRank job.status ≤
      schedRank (claimerJob traceId now env profile job db).job.status := by
  unfold claimerJob
  repeat' split
  all_goals simpa [jobFail, schedRank] using schedRank_le_two job.status

theorem applyClaim_rank_mono (r : SchedRow) (a : ClaimAttempt) :
    schedRank r.status ≤ schedRank (applyClaim r a).2.status := by
  unfold applyClaim rpcClaimRow fallbackClaimRow
  repeat' split
  all_goals simp_all [schedRank]

theorem cancel_forall2 (userId : String) (callId : Nat) (now : Int)
    (db : List SchedRow) :
    List.Forall₂ (fun a b => schedRank a.status ≤ schedRank b.status) db
      (cancelScheduledCall userId callId now db) := by
  induction db with
  | nil => exact List.Forall₂.nil
  | cons r t ih =>
    refine List.Forall₂.cons ?_ ih
    by_cases h : r.id = callId ∧ r.clerk_user_id = userId
    · simp only [cancelScheduledCall, if_pos h]
      exact schedRank_le_two r.status
    · simp only [cancelScheduledCall, if_neg h]
      exact le_refl _

theorem onboarding_chain (inp : OnbInput) (env : OnbEnv) :
    List.Chain' (fun a b => setupRank a < setupRank b)
      ((processOnboarding inp env).writes.map (·.status)) := by
  rcases processOnboarding_writes_cases inp env with h|h|h|⟨v,h⟩|⟨v,a,h⟩ <;>
    rw [h] <;> simp [setupRank]

theorem countActive_append (u : String) (l1 l2 : List Call) :
    countActive u (l1 ++ l2) = countActive u l1 + countActive u l2 := by
  simp [countActive, List.filter_append]

theorem applyPatchById_append (l1 l2 : List Call) (cid : Nat) (p : CallPatch) :
    applyPatchById (l1 ++ l2) cid p =
      applyPatchById l1 cid p ++ applyPatchById l2 cid p := by
  simp [applyPatchById]

theorem applyPatchById_eq_of_forall_ne (l : List Call) (cid : Nat) (p : CallPatch)
    (h : ∀ x ∈ l, x.id ≠ cid) : applyPatchById l cid p = l := by
  induction l with
  | nil => rfl
  | cons c t ih =>
    have h1 : c.id ≠ cid := h c (by simp)
    have h2 := ih (fun x hx => h x (by simp [hx]))
    simp only [applyPatchById, List.map_cons, if_neg h1]
    exact congrArg (c :: ·) h2

/-- C2 amended: the manual dispatcher preserves the single-active-call
invariant — when reconciliation leaves no active call it inserts at most one,
and when an active call remains it rejects with ActiveCallExists and changes
nothing (the scheduled-call claimer enforces no such check, see the
counterexample). -/
theorem c2_dispatcher_single_active (userId : String) (now : Int) (env : StartEnv)
    (prof : Profile) (tsId : String) (db : List Call)
    (hready : prof.setup_status = .ready)
    (hagent : (jsTruthyStr prof.eleven_agent_id).isSome)
    (hphone : (jsTruthyStr prof.phone_e164).isSome)
    (hfresh : env.rowId ∉ db.map (·.id)) :
    (countActive userId (reconcileStuckCalls userId now env.oracle db) = 0 →
      countActive userId (startCall userId now env (some prof) (some tsId) db).db ≤ 1) ∧
    (0 < countActive userId (reconcileStuckCalls userId now env.oracle db) →
      (startCall userId now env (some prof) (some tsId) db).result = .activeCallExists ∧
      (startCall userId now env (some prof) (some tsId) db).db =
        reconcileStuckCalls userId now env.oracle db) := by
  have hnr : ¬(prof.setup_status ≠ SetupStatus.ready ∨
      jsTruthyStr prof.eleven_agent_id = none) := by
    push_neg
    exact ⟨hready, Option.isSome_iff_ne_none.mp hagent⟩
  obtain ⟨ph, hph⟩ := Option.isSome_iff_exists.mp hphone
  have hb1 : ∀ x ∈ reconcileStuckCalls userId now env.oracle db,
      x.id ≠ env.rowId := by
    intro x hx heq
    exact hfresh (heq ▸ reconcile_mem_id userId now env.oracle db x hx)
  constructor
  · intro hcnt
    have hfil : (reconcileStuckCalls userId now env.oracle db).filter
        (fun c => c.clerk_user_id == userId && isActiveStatus c.status) = [] :=
      List.length_eq_zero.mp hcnt
    have hany : (reconcileStuckCalls userId now env.oracle db).any
        (fun c => c.clerk_user_id == userId && isActiveStatus c.status) = false := by
      rw [List.any_eq_false]
      intro x hx
      have := List.filter_eq_nil_iff.mp hfil x hx
      simpa using this
    unfold startCall
    simp only [if_neg hnr, hph, hany]
    rw [if_neg (by simp)]
    split
    · dsimp only
      simp [hcnt]
    · split
      · dsimp only
        rw [countActive_append, hcnt]
        simp [countActive, newCallRow, isActiveStatus]
      · split
        · dsimp only
          rw [applyPatchById_append, applyPatchById_eq_of_forall_ne _ _ _ hb1,
            countActive_append, hcnt]
          simp [applyPatchById, countActive, newCallRow, applyCallPatch,
            isActiveStatus]
        · dsimp only
          rw [applyPatchById_append, applyPatchById_eq_of_forall_ne _ _ _ hb1,
            countActive_append, hcnt]
          simp [applyPatchById, countActive, newCallRow, applyCallPatch,
            isActiveStatus]
  · intro hcnt
    have hany : (reconcileStuckCalls userId now env.oracle db).any
        (fun c => c.clerk_user_id == userId && isActiveStatus c.status) = true := by
      rw [List.any_eq_true]
      have hne : (reconcileStuckCalls userId now env.oracle db).filter
          (fun c => c.clerk_user_id == userId && isActiveStatus c.status) ≠ [] := by
        intro h
        rw [countActive, h] at hcnt
        simp at hcnt
      obtain ⟨x, hx⟩ := List.exists_mem_of_ne_nil _ hne
      have hx2 := List.mem_filter.mp hx
      exact ⟨x, hx2.1, hx2.2⟩
    unfold startCall
    simp only [if_neg hnr, hph, hany]
    rw [if_pos trivial]
    exact ⟨rfl, rfl⟩

theorem runClaims_executing (r : SchedRow) (l : List ClaimAttempt)
    (h : r.status = .executing) : runClaims r l = (0, 0, r) := by
  induction l with
  | nil => rfl
  | cons a rest ih =>
    have hap : applyClaim r a = (false, r) := by
      unfold applyClaim rpcClaimRow fallbackClaimRow
      cases a.kind <;> simp [h]
    unfold runClaims
    simp [hap, ih, h]

/-- C5: any non-empty serialization of concurrent claim attempts (atomic RPC
or status-guarded fallback PATCH, at any times after the row is due) on a
pending scheduled row has exactly one succeeding attempt, exactly one
transition into executing, and leaves the row executing. -/
theorem c5_claim_exclusivity (r : SchedRow) (attempts : List ClaimAttempt)
    (hpend : r.status = .pending) (hne : attempts ≠ [])
    (hdue : ∀ a ∈ attempts, r.scheduled_for ≤ a.now) :
    (runClaims r attempts).1 = 1 ∧
    (runClaims r attempts).2.1 = 1 ∧
    (runClaims r attempts).2.2.status = .executing := by
  cases attempts with
  | nil => exact absurd rfl hne
  | cons a rest =>
    have hdue1 : r.scheduled_for ≤ a.now := hdue a (List.mem_cons_self a rest)
    have hap : applyClaim r a =
        (true, { r with
                 status := SchedStatus.executing
                 last_attempt_at := some a.now
                 attempt_count := r.attempt_count + 1 }) := by
      unfold applyClaim rpcClaimRow fallbackClaimRow
      cases a.kind <;> simp [hpend, hdue1]
    simp only [runClaims, hap]
    rw [runClaims_executing _ rest (by rfl)]
    simp [hpend]

theorem applyPatchById_filter_ne (db : List Call) (cid x : Nat) (p : CallPatch)
    (h : cid ≠ x) :
    (applyPatchById db cid p).filter (fun c => c.id == x) =
      db.filter (fun c => c.id == x) := by
  unfold applyPatchById
  induction db with
  | nil => rfl
  | cons c t ih =>
    by_cases hc : c.id = cid
    · have h1 : ((applyCallPatch p c).id == x) = false := by
        rw [show (applyCallPatch p c).id = c.id from rfl, hc]
        simp [h]
      have h2 : (c.id == x) = false := by
        rw [hc]
        simp [h]
      simp [List.filter_cons, hc, h1, h2, ih, h]
    · by_cases hx : (c.id == x) = true <;> simp [List.filter_cons, hc, hx, ih]

theorem applyPatchById_filter_eq (db : List Call) (cid : Nat) (p : CallPatch) :
    (applyPatchById db cid p).filter (fun c => c.id == cid) =
      (db.filter (fun c => c.id == cid)).map (applyCallPatch p) := by
  unfold applyPatchById
  induction db with
  | nil => rfl
  | cons c t ih =>
    by_cases hc : c.id = cid
    · have h1 : ((applyCallPatch p c).id == cid) = true := by
        rw [show (applyCallPatch p c).id = c.id from rfl, hc]
        simp
      simp [List.filter_cons, hc, h1, ih]
    · have h2 : (c.id == cid) = false := by simp [hc]
      simp [List.filter_cons, hc, h2, ih]

theorem reconcileStep_filter_ne (now : Int) (oracle : String → ProviderResp)
    (f : Call) (x : Nat) (h : f.id ≠ x) (db : List Call) :
    (reconcileStep now oracle db f).filter (fun c => c.id == x) =
      db.filter (fun c => c.id == x) := by
  unfold reconcileStep
  cases decideCall now oracle f with
  | none => rfl
  | some p => exact applyPatchById_filter_ne db f.id x p h

theorem foldl_reconcile_filter_ne (now : Int) (oracle : String → ProviderResp)
    (l : List Call) (x : Nat) (h : ∀ f ∈ l, f.id ≠ x) :
    ∀ db : List Call,
      ((l.foldl (reconcileStep now oracle) db).filter (fun c => c.id == x)) =
        db.filter (fun c => c.id == x) := by
  induction l with
  | nil => intro db; rfl
  | cons f t ih =>
    intro db
    rw [List.foldl_cons,
      ih (fun g hg => h g (List.mem_cons_of_mem f hg)) (reconcileStep now oracle db f),
      reconcileStep_filter_ne now oracle f x (h f (List.mem_cons_self f t)) db]

theorem fetchActive_sort_perm (l : List Call) : List.Perm (sortByCreatedDesc l) l := by
  induction l with
  | nil => exact List.Perm.refl []
  | cons c t ih =>
    have hins : ∀ (d : Call) (m : List Call), List.Perm (insertDesc d m) (d :: m) := by
      intro d m
      induction m with
      | nil => exact List.Perm.refl [d]
      | cons e s ihm =>
        unfold insertDesc
        by_cases hb : beforeDesc d e = true
        · rw [if_pos hb]
        · rw [if_neg hb]
          exact (List.Perm.cons e ihm).trans (List.Perm.swap d e s)
    exact (hins c (sortByCreatedDesc t)).trans (List.Perm.cons c ih)

theorem fetchActive_ids_nodup (userId : String) (db : List Call)
    (hnd : (db.map (·.id)).Nodup) :
    ((fetchActive userId db).map (·.id)).Nodup := by
  have h1 : ((db.filter
      (fun c => c.clerk_user_id == userId && isActiveStatus c.status)).map
        (·.id)).Nodup :=
    List.Nodup.sublist ((List.filter_sublist db).map (·.id)) hnd
  have h2 : ((sortByCreatedDesc (db.filter
      (fun c => c.clerk_user_id == userId && isActiveStatus c.status))).map
        (·.id)).Nodup := by
    have hp := List.Perm.map (·.id) (fetchActive_sort_perm
      (db.filter (fun c => c.clerk_user_id == userId && isActiveStatus c.status)))
    exact (List.Perm.nodup_iff hp).mpr h1
  have hs2 : ((fetchActive userId db).map (·.id)).Sublist
      ((sortByCreatedDesc (db.filter
        (fun c => c.clerk_user_id == userId && isActiveStatus c.status))).map
          (·.id)) := by
    unfold fetchActive
    exact (List.take_sublist 3 _).map _
  exact List.Nodup.sublist hs2 h2

theorem fetchActive_mem (userId : String) (db : List Call) (f : Call)
    (hf : f ∈ fetchActive userId db) : f ∈ db := by
  have h1 := (List.take_sublist 3 _).subset hf
  have h2 := (fetchActive_sort_perm _).mem_iff.mp h1
  exact List.mem_of_mem_filter h2

theorem reconcile_outcome (userId : String) (now : Int)
    (oracle : String → ProviderResp) (db : List Call)
    (hnd : (db.map (·.id)).Nodup) (f : Call) (hf : f ∈ fetchActive userId db) :
    (reconcileStuckCalls userId now oracle db).filter (fun c => c.id == f.id) =
      (db.filter (fun c => c.id == f.id)).map
        (fun c => match decideCall now oracle f with
                  | some p => applyCallPatch p c
                  | none => c) := by
  obtain ⟨l1, l2, hsplit⟩ := List.append_of_mem hf
  have hfn := fetchActive_ids_nodup userId db hnd
  rw [hsplit] at hfn
  simp only [List.map_append, List.map_cons, List.nodup_append,
    List.nodup_cons, List.mem_cons, List.mem_append, List.mem_map] at hfn
  have h1 : ∀ g ∈ l1, g.id ≠ f.id := by
    intro g hg heq
    exact hfn.2.2 (List.mem_map_of_mem _ hg) (heq ▸ List.mem_cons_self f.id _)
  have h2 : ∀ g ∈ l2, g.id ≠ f.id := by
    intro g hg heq
    exact hfn.2.1.1 ⟨g, hg, heq⟩
  unfold reconcileStuckCalls
  rw [hsplit, List.foldl_append, List.foldl_cons]
  rw [foldl_reconcile_filter_ne now oracle l2 f.id h2]
  cases hdec : decideCall now oracle f with
  | none =>
    have hstep : reconcileStep now oracle
        (List.foldl (reconcileStep now oracle) db l1) f =
        List.foldl (reconcileStep now oracle) db l1 := by
      unfold reconcileStep
      rw [hdec]
    rw [hstep, foldl_reconcile_filter_ne now oracle l1 f.id h1]
    simp
  | some p =>
    have hstep : reconcileStep now oracle
        (List.foldl (reconcileStep now oracle) db l1) f =
        applyPatchById (List.foldl (reconcileStep now oracle) db l1) f.id p := by
      unfold reconcileStep
      rw [hdec]
    rw [hstep, applyPatchById_filter_eq,
      foldl_reconcile_filter_ne now oracle l1 f.id h1]

/-- C6 amended: for a fetched active call with no conversation id whose
start/creation time is more than 12 minutes old, the reconciliation decision
is deterministically the stale_no_conversation_id failure patch, and after
the pass every stored record with that call id is failed with that reason —
provided the call is among the at-most-3 fetched rows (see the
counterexample for a fourth call left untouched). -/
theorem c6_stale_no_convo (now : Int) (oracle : String → ProviderResp)
    (userId : String) (db : List Call) (c : Call) (t : Int)
    (hnd : (db.map (·.id)).Nodup)
    (hc : c ∈ fetchActive userId db)
    (hconv : c.eleven_conversation_id = none)
    (ht : startTimeOf c = some t)
    (hstale : now - t > STALE_MS) :
    decideCall now oracle c = some (failPatch now "stale_no_conversation_id") ∧
    ∀ p ∈ reconcileStuckCalls userId now oracle db, p.id = c.id →
      p.status = .failed ∧ p.failure_reason = some "stale_no_conversation_id" := by
  have hstale2 : isStale now c = true := by
    unfold isStale
    rw [ht]
    by_cases h0 : t = 0 <;> simp [h0, hstale]
  have hdec : decideCall now oracle c =
      some (failPatch now "stale_no_conversation_id") := by
    unfold decideCall
    simp [hconv, hstale2]
  refine ⟨hdec, ?_⟩
  intro p hp hpid
  have hout := reconcile_outcome userId now oracle db hnd c hc
  rw [hdec] at hout
  have hpf : p ∈ (reconcileStuckCalls userId now oracle db).filter
      (fun x => x.id == c.id) :=
    List.mem_filter.mpr ⟨hp, by simp [hpid]⟩
  rw [hout] at hpf
  obtain ⟨q, hq, rfl⟩ := List.mem_map.mp hpf
  exact ⟨rfl, rfl⟩

/-- C9 amended: one reconciliation pass fetches at most 3 of the user's
non-terminal calls (most recent first), and for each fetched call the store
ends up with exactly the decision outcome applied to its record — complete,
fail, or untouched. Calls beyond the fetch window are not examined (see the
counterexample). -/
theorem c9_reconcile_window (userId : String) (now : Int)
    (oracle : String → ProviderResp) (db : List Call)
    (hnd : (db.map (·.id)).Nodup) :
    (fetchActive userId db).length ≤ 3 ∧
    ∀ f ∈ fetchActive userId db,
      (reconcileStuckCalls userId now oracle db).filter (fun c => c.id == f.id) =
        (db.filter (fun c => c.id == f.id)).map
          (fun c => match decideCall now oracle f with
                    | some p => applyCallPatch p c
                    | none => c) := by
  constructor
  · unfold fetchActive
    exact List.length_take_le 3 _
  · exact fun f hf => reconcile_outcome userId now oracle db hnd f hf

/-- C10: a non-terminal call with neither started_at nor created_at is
treated as stale by the reconciliation loop at every time now, and its
decision is always a terminal patch (completed or failed) whatever the
provider answers — it is forcibly resolved rather than waiting out the
12-minute threshold. -/
theorem c10_missing_timestamps_stale (c : Call) (hs : c.started_at = none) (hcr : c.created_at = none)
    (hact : isActiveStatus c.status = true) :
    (∀ now : Int, isStale now c = true) ∧
    (∀ (now : Int) (oracle : String → ProviderResp),
      ∃ p, decideCall now oracle c = some p ∧
        (p.status = .completed ∨ p.status = .failed)) := by
  have hstart : startTimeOf c = none := by
    unfold startTimeOf
    rw [hs, hcr]
  have hstale : ∀ now : Int, isStale now c = true := by
    intro now
    unfold isStale
    rw [hstart]
  refine ⟨hstale, ?_⟩
  intro now oracle
  cases hconv : c.eleven_conversation_id with
  | none =>
    refine ⟨failPatch now "stale_no_conversation_id", ?_, Or.inr rfl⟩
    unfold decideCall
    simp [hconv, hstale now]
  | some cid =>
    cases horc : oracle cid with
    | notFound =>
      refine ⟨failPatch now "stale_conversation_not_found", ?_, Or.inr rfl⟩
      unfold decideCall
      simp [hconv, horc, hstale now]
    | httpError code =>
      refine ⟨failPatch now ("stale_eleven_error_" ++ toString code), ?_, Or.inr rfl⟩
      unfold decideCall
      simp [hconv, horc, hstale now]
    | ok d =>
      unfold decideCall
      simp only [hconv, horc, hstale now]
      split
      · exact ⟨_, rfl, Or.inl rfl⟩
      · refine ⟨failPatch now "stale_unknown_state", ?_, Or.inr rfl⟩
        simp [hstale now]


/-- C3 amended: statuses are monotone within each entity's lifetime under
every modeled operation — onboarding writes within one run climb strictly in
rank, reconciliation, the dispatcher and the claimer never lower a call's
rank, claim attempts and cancellation never lower a scheduled row's rank —
but a fresh processOnboarding invocation may regress the profile status (see
the counterexample). -/
theorem c3_monotonicity_amended :
    (∀ (inp : OnbInput) (env : OnbEnv),
      List.Chain' (fun a b => setupRank a < setupRank b)
        ((processOnboarding inp env).writes.map (·.status))) ∧
    (∀ (userId : String) (now : Int) (oracle : String → ProviderResp)
        (db : List Call), (db.map (·.id)).Nodup →
      ∀ c0 ∈ db, ∀ c1 ∈ reconcileStuckCalls userId now oracle db,
        c0.id = c1.id → callRank c0.status ≤ callRank c1.status) ∧
    (∀ (userId : String) (now : Int) (env : StartEnv) (profile : Option Profile)
        (latestTs : Option String) (db : List Call),
      (db.map (·.id)).Nodup → env.rowId ∉ db.map (·.id) →
      ∀ c0 ∈ db, ∀ c1 ∈ (startCall userId now env profile latestTs db).db,
        c0.id = c1.id → callRank c0.status ≤ callRank c1.status) ∧
    (∀ (traceId : String) (now : Int) (env : JobEnv) (profile : Option Profile)
        (job : SchedRow) (db : List Call),
      (db.map (·.id)).Nodup → env.rowId ∉ db.map (·.id) →
      (∀ c0 ∈ db, ∀ c1 ∈ (claimerJob traceId now env profile job db).db,
        c0.id = c1.id → callRank c0.status ≤ callRank c1.status) ∧
      schedRank job.status ≤
        schedRank (claimerJob traceId now env profile job db).job.status) ∧
    (∀ (r : SchedRow) (a : ClaimAttempt),
      schedRank r.status ≤ schedRank (applyClaim r a).2.status) ∧
    (∀ (userId : String) (callId : Nat) (now : Int) (db : List SchedRow),
      List.Forall₂ (fun a b => schedRank a.status ≤ schedRank b.status) db
        (cancelScheduledCall userId callId now db)) :=
  ⟨onboarding_chain,
   fun userId now oracle db hnd c0 h0 c1 h1 hid =>
     reconcile_rank_mono userId now oracle db hnd c0 h0 c1 h1 hid,
   fun userId now env profile latestTs db hnd hfresh c0 h0 c1 h1 hid =>
     startCall_rank_mono userId now env profile latestTs db hnd hfresh
       c0 h0 c1 h1 hid,
   fun traceId now env profile job db hnd hfresh =>
     ⟨fun c0 h0 c1 h1 hid =>
        claimerJob_rank_mono traceId now env profile job db hnd hfresh
          c0 h0 c1 h1 hid,
      claimerJob_sched_mono traceId now env profile job db⟩,
   applyClaim_rank_mono,
   cancel_forall2⟩

/- Concrete data refuting C2's claimer conjunct: a user with one active
   (dialing) call and a claimed due job; the per-job loop checks no per-user
   active calls and dials anyway. -/

def c2Db : List Call :=
  [{ id := 1, clerk_user_id := "u", status := .dialing,
     created_at := some 100000, started_at := some 100000,
     eleven_conversation_id := some "conv1" }]

def c2Job : SchedRow :=
  { id := 7, clerk_user_id := "u", timestamp_id := some "ts1",
    scheduled_for := 50000, status := .executing, attempt_count := 1 }

def c2Prof : Profile :=
  { clerk_user_id := "u", phone_e164 := some "+15551234567",
    setup_status := .ready, eleven_voice_id := some "v",
    eleven_agent_id := some "a" }

def c2JobEnv : JobEnv :=
  { insertOk := true, rowId := 2, insertReturnsId := true,
    dial := some { conversation_id := some "conv2", callSid := some "CA1" } }

/-- C2 counterexample: the scheduled-call claimer's per-job dialing does not
preserve the at-most-one-active-call-per-user invariant: starting from one
active call for user u, a successfully dialed job leaves u with two. -/
theorem c2_claimer_counterexample :
    countActive "u" c2Db = 1 ∧
    (claimerJob "trace" 200000 c2JobEnv (some c2Prof) c2Job c2Db).job.status =
      SchedStatus.executed ∧
    countActive "u"
      (claimerJob "trace" 200000 c2JobEnv (some c2Prof) c2Job c2Db).db = 2 := by
  decide

/- Concrete data refuting C6 as universally stated: four stale active calls
   with no conversation id; the pass fetches only the three most recent, so
   the oldest stays queued. -/

def c6Oracle : String → ProviderResp := fun _ => ProviderResp.notFound

def c6Call14 : Call :=
  { id := 14, clerk_user_id := "alice", status := .queued,
    created_at := some 2000 }

def c6Db : List Call :=
  [{ id := 11, clerk_user_id := "alice", status := .queued,
     created_at := some 5000 },
   { id := 12, clerk_user_id := "alice", status := .queued,
     created_at := some 4000 },
   { id := 13, clerk_user_id := "alice", status := .queued,
     created_at := some 3000 },
   c6Call14]

/-- C6 counterexample: call 14 is non-terminal, has no conversation id and is
far beyond the 12-minute staleness threshold, yet the reconciliation pass
(which fetches only the 3 most recent active calls) leaves it queued instead
of setting it to failed. -/
theorem c6_limit_counterexample :
    (c6Call14.eleven_conversation_id = none ∧
     startTimeOf c6Call14 = some 2000 ∧
     ((10000000 : Int) - 2000 > STALE_MS) ∧
     isActiveStatus c6Call14.status = true ∧
     c6Call14 ∈ c6Db) ∧
    (reconcileStuckCalls "alice" 10000000 c6Oracle c6Db).filter
      (fun c => c.id == 14) = [c6Call14] ∧
    c6Call14.status = CallStatus.queued := by
  decide

/- Concrete data refuting C9: four non-terminal calls for one user; the pass
   never examines the oldest even though its decision would be failure. -/

def c9Oracle : String → ProviderResp := fun _ => ProviderResp.notFound

def c9Call24 : Call :=
  { id := 24, clerk_user_id := "bob", status := .dialing,
    created_at := some 600 }

def c9Db : List Call :=
  [{ id := 21, clerk_user_id := "bob", status := .queued,
     created_at := some 900 },
   { id := 22, clerk_user_id := "bob", status := .queued,
     created_at := some 800 },
   { id := 23, clerk_user_id := "bob", status := .queued,
     created_at := some 700 },
   c9Call24]

/-- C9 counterexample: the user has four non-terminal calls; the decision
policy for the oldest (stale, no conversation id) is a failure patch, but one
reconciliation invocation leaves it untouched — the pass does not decide an
outcome for every non-terminal call, only for the at-most-3 it fetches. -/
theorem c9_limit_counterexample :
    (c9Db.filter (fun c => c.clerk_user_id == "bob" &&
      isActiveStatus c.status)).length = 4 ∧
    decideCall 10000000 c9Oracle c9Call24 =
      some (failPatch 10000000 "stale_no_conversation_id") ∧
    (reconcileStuckCalls "bob" 10000000 c9Oracle c9Db).filter
      (fun c => c.id == 24) = [c9Call24] ∧
    c9Call24.status = CallStatus.dialing := by
  decide

def c7Row : SchedRow :=
  { id := 3, clerk_user_id := "u", scheduled_for := 100, status := .executing }

/-- C7 counterexample: the cancel PATCH carries no status=pending guard, so
cancelling a scheduled call that is already executing changes its status to
canceled instead of leaving it unchanged. -/
theorem c7_cancel_executing_counterexample :
    c7Row.status = SchedStatus.executing ∧
    (cancelScheduledCall "u" 3 999 [c7Row]).map (·.status) =
      [SchedStatus.canceled] := by
  decide

/-- C7 amended: the user cancel operation sets status canceled on the row
matching the given id and owner whatever its current status (pending,
executing, or terminal), and leaves every other row unchanged. -/
theorem c7_cancel_unguarded (userId : String) (callId : Nat) (now : Int)
    (db : List SchedRow) (r : SchedRow) (hr : r ∈ db) :
    (r.id = callId ∧ r.clerk_user_id = userId →
      { r with status := SchedStatus.canceled, updated_at := some now } ∈
        cancelScheduledCall userId callId now db) ∧
    (¬ (r.id = callId ∧ r.clerk_user_id = userId) →
      r ∈ cancelScheduledCall userId callId now db) := by
  constructor
  · intro h
    have hm := List.mem_map_of_mem (fun r : SchedRow =>
      if r.id = callId ∧ r.clerk_user_id = userId then
        { r with status := SchedStatus.canceled, updated_at := some now }
      else r) hr
    simpa [cancelScheduledCall, if_pos h] using hm
  · intro h
    have hm := List.mem_map_of_mem (fun r : SchedRow =>
      if r.id = callId ∧ r.clerk_user_id = userId then
        { r with status := SchedStatus.canceled, updated_at := some now }
      else r) hr
    simpa [cancelScheduledCall, if_neg h] using hm

/- Witness data: concrete inputs at which the hypothesised theorems hold. -/

def c1wProfile : Profile := { clerk_user_id := "w" }

def c1wInp : OnbInput :=
  { userId := "w", voiceSamplePath := some "w/a.webm",
    profile := some c1wProfile }

def c1wEnv : OnbEnv :=
  { stt := some "t", extract := some ⟨[], [], "", none, none⟩,
    voiceHttp := some ⟨some "v1"⟩, agentHttp := some ⟨some "a1", none⟩ }

def c1wState : Profile :=
  { clerk_user_id := "w", setup_status := .ready,
    eleven_voice_id := some "v1", eleven_agent_id := some "a1" }

theorem c1_witness :
    (c1wState ∈ onbStates c1wInp c1wEnv) ∧
    c1wState.setup_status = SetupStatus.ready ∧
    (c1wState.eleven_voice_id.isSome ∧ c1wState.eleven_agent_id.isSome) :=
  ⟨by decide, by decide,
   (c1_ready_implies_ids c1wInp c1wEnv c1wState (by decide) (by decide)).1⟩

def c2wEnv : StartEnv :=
  { oracle := fun _ => ProviderResp.notFound, insertOk := true, rowId := 1,
    insertReturnsId := true,
    dial := some { conversation_id := some "cv", callSid := some "cs" } }

theorem c2_witness :
    c2Prof.setup_status = SetupStatus.ready ∧
    countActive "u" (reconcileStuckCalls "u" 0 c2wEnv.oracle []) = 0 ∧
    countActive "u" (startCall "u" 0 c2wEnv (some c2Prof) (some "ts") []).db ≤ 1 :=
  ⟨rfl, by decide,
   (c2_dispatcher_single_active "u" 0 c2wEnv c2Prof "ts" [] rfl (by decide)
     (by decide) (by decide)).1 (by decide)⟩

def c3wCall : Call :=
  { id := 5, clerk_user_id := "w", status := .queued, created_at := some 50 }

def c3wOracle : String → ProviderResp := fun _ => ProviderResp.notFound

theorem c3_witness :
    (([c3wCall].map (·.id)).Nodup) ∧ (c3wCall ∈ [c3wCall]) ∧
    (c3wCall ∈ reconcileStuckCalls "w" 60 c3wOracle [c3wCall]) ∧
    callRank c3wCall.status ≤ callRank c3wCall.status :=
  ⟨by decide, by decide, by decide,
   c3_monotonicity_amended.2.1 "w" 60 c3wOracle [c3wCall] (by decide) c3wCall
     (by decide) c3wCall (by decide) rfl⟩

def c4wProf : Profile :=
  { clerk_user_id := "w", setup_status := .ready,
    eleven_voice_id := some "v9", eleven_agent_id := some "a9" }

def c4wInp : OnbInput :=
  { userId := "w", voiceSamplePath := some "p", profile := some c4wProf }

theorem c4_witness :
    c4wProf.setup_status = SetupStatus.ready ∧
    (processOnboarding c4wInp {}).result = OnbResult.alreadyReady "v9" "a9" ∧
    (processOnboarding c4wInp {}).writes = [] ∧
    (processOnboarding c4wInp {}).extCalls = [] :=
  ⟨rfl,
   (c4_idempotent_ready c4wInp {} {} c4wProf rfl "p" rfl rfl "v9" "a9" rfl
     (by decide) rfl (by decide)).1,
   (c4_idempotent_ready c4wInp {} {} c4wProf rfl "p" rfl rfl "v9" "a9" rfl
     (by decide) rfl (by decide)).2.1,
   (c4_idempotent_ready c4wInp {} {} c4wProf rfl "p" rfl rfl "v9" "a9" rfl
     (by decide) rfl (by decide)).2.2.1⟩

def c5wRow : SchedRow :=
  { id := 9, clerk_user_id := "w", scheduled_for := 100, status := .pending }

def c5wAttempts : List ClaimAttempt :=
  [⟨.rpc, 150⟩, ⟨.fallback, 200⟩, ⟨.rpc, 300⟩]

theorem c5_witness :
    c5wRow.status = SchedStatus.pending ∧
    (runClaims c5wRow c5wAttempts).1 = 1 ∧
    (runClaims c5wRow c5wAttempts).2.1 = 1 ∧
    (runClaims c5wRow c5wAttempts).2.2.status = SchedStatus.executing :=
  ⟨rfl,
   (c5_claim_exclusivity c5wRow c5wAttempts rfl (by decide) (by decide)).1,
   (c5_claim_exclusivity c5wRow c5wAttempts rfl (by decide) (by decide)).2.1,
   (c5_claim_exclusivity c5wRow c5wAttempts rfl (by decide) (by decide)).2.2⟩

def c6wCall : Call :=
  { id := 31, clerk_user_id := "w", status := .queued,
    created_at := some 1000 }

theorem c6_witness :
    (([c6wCall].map (·.id)).Nodup) ∧
    (c6wCall ∈ fetchActive "w" [c6wCall]) ∧
    decideCall 10000000 c6Oracle c6wCall =
      some (failPatch 10000000 "stale_no_conversation_id") :=
  ⟨by decide, by decide,
   (c6_stale_no_convo 10000000 c6Oracle "w" [c6wCall] c6wCall 1000 (by decide)
     (by decide) rfl (by decide) (by decide)).1⟩

theorem c7_witness :
    (c7Row ∈ [c7Row]) ∧
    ({ c7Row with status := SchedStatus.canceled, updated_at := some 999 } ∈
      cancelScheduledCall "u" 3 999 [c7Row]) :=
  ⟨by decide,
   (c7_cancel_unguarded "u" 3 999 [c7Row] c7Row (by decide)).1 (by decide)⟩

def c8wProf : Profile := { clerk_user_id := "w" }

def c8wInp : OnbInput :=
  { userId := "w", voiceSamplePath := some "p", profile := some c8wProf }

def c8wEnv : OnbEnv :=
  { stt := none, voiceHttp := some ⟨some "v1"⟩,
    agentHttp := some ⟨some "a1", none⟩ }

theorem c8_witness :
    c8wEnv.stt = none ∧
    (processOnboarding c8wInp c8wEnv).result = OnbResult.ok "v1" "a1" ∧
    (applyWrites c8wProf
      (processOnboarding c8wInp c8wEnv).writes).setup_status =
      SetupStatus.ready :=
  ⟨rfl,
   (c8_best_effort_generic_prompt c8wInp c8wEnv c8wProf "p" "v1" "a1"
     ⟨some "v1"⟩ ⟨some "a1", none⟩ rfl rfl (by decide) rfl rfl (Or.inl rfl)
     rfl rfl (by decide) rfl rfl (by decide)).1,
   (c8_best_effort_generic_prompt c8wInp c8wEnv c8wProf "p" "v1" "a1"
     ⟨some "v1"⟩ ⟨some "a1", none⟩ rfl rfl (by decide) rfl rfl (Or.inl rfl)
     rfl rfl (by decide) rfl rfl (by decide)).2.1⟩

def c9wCall : Call :=
  { id := 41, clerk_user_id := "w", status := .queued,
    created_at := some 100 }

theorem c9_witness :
    (([c9wCall].map (·.id)).Nodup) ∧
    (fetchActive "w" [c9wCall]).length ≤ 3 ∧
    (c9wCall ∈ fetchActive "w" [c9wCall]) ∧
    (reconcileStuckCalls "w" 10000000 c9Oracle [c9wCall]).filter
        (fun c => c.id == c9wCall.id) =
      ([c9wCall].filter (fun c => c.id == c9wCall.id)).map
        (fun c => match decideCall 10000000 c9Oracle c9wCall with
                  | some p => applyCallPatch p c
                  | none => c) :=
  ⟨by decide,
   (c9_reconcile_window "w" 10000000 c9Oracle [c9wCall] (by decide)).1,
   by decide,
   (c9_reconcile_window "w" 10000000 c9Oracle [c9wCall] (by decide)).2
     c9wCall (by decide)⟩

def c10wCall : Call := { id := 51, clerk_user_id := "w", status := .queued }

def c10wOracle : String → ProviderResp := fun _ => ProviderResp.notFound

theorem c10_witness :
    c10wCall.started_at = none ∧ c10wCall.created_at = none ∧
    isStale 5 c10wCall = true ∧
    (∃ p, decideCall 5 c10wOracle c10wCall = some p ∧
      (p.status = CallStatus.completed ∨ p.status = CallStatus.failed)) :=
  ⟨rfl, rfl,
   (c10_missing_timestamps_stale c10wCall rfl rfl rfl).1 5,
   (c10_missing_timestamps_stale c10wCall rfl rfl rfl).2 5 c10wOracle⟩
